import Mathlib

/-!
Shallow embedding of the BusTub buffer-pool subsystem:
`src/buffer/lru_replacer.cpp` and `src/buffer/buffer_pool_manager.cpp`.

The LRU replacer's `std::list` is a `List FrameId` whose front is the
most recently inserted element (`Unpin` inserts at `begin`, `Victim`
pops the `back`).  The manager state carries the frame array, the page
table and free list, plus the disk manager's observable state: the
stored pages, the bump-allocation counter behind `AllocatePage`, and
the log of `DeallocatePage` calls.  Each operation returns its result
together with the successor state and the list of `WritePage` calls it
issued, so that disk-write behaviour is part of the model.
-/

namespace BusTub

abbrev PageId := Int
abbrev FrameId := Nat
abbrev PageData := List Nat

def INVALID_PAGE_ID : PageId := -1

def PAGE_SIZE : Nat := 4096

/-- One slot of the `pages_` array: metadata plus the page bytes. -/
structure Page where
  page_id : PageId
  pin_count : Int
  is_dirty : Bool
  data : PageData
deriving DecidableEq, Repr

/-- A freshly constructed `Page`: invalid id, unpinned, clean, zeroed. -/
def Page.init : Page :=
  { page_id := INVALID_PAGE_ID, pin_count := 0, is_dirty := false,
    data := List.replicate PAGE_SIZE 0 }

/-- Association-list lookup keyed by page id (models `unordered_map::find`). -/
def alistLookup {β : Type} : List (PageId × β) → PageId → Option β
  | [], _ => none
  | (k, v) :: rest, pid => if k = pid then some v else alistLookup rest pid

/-- Remove every binding of a key (models `unordered_map::erase`;
keys are never duplicated by `ptInsert`). -/
def alistErase {β : Type} : List (PageId × β) → PageId → List (PageId × β)
  | [], _ => []
  | (k, v) :: rest, pid =>
    if k = pid then alistErase rest pid else (k, v) :: alistErase rest pid

/-- `unordered_map::insert`: a no-op when the key is already present. -/
def ptInsert (pt : List (PageId × FrameId)) (pid : PageId) (fid : FrameId) :
    List (PageId × FrameId) :=
  match alistLookup pt pid with
  | some _ => pt
  | none => (pid, fid) :: pt

/-- `DiskManager::ReadPage`: content stored for `pid`, zeros otherwise. -/
def diskRead (disk : List (PageId × PageData)) (pid : PageId) : PageData :=
  (alistLookup disk pid).getD (List.replicate PAGE_SIZE 0)

/-- `DiskManager::WritePage`. -/
def diskWrite (disk : List (PageId × PageData)) (pid : PageId) (d : PageData) :
    List (PageId × PageData) :=
  (pid, d) :: alistErase disk pid

/-- A `DiskManager::WritePage` call, recording which frame supplied it. -/
structure WriteEv where
  frame : FrameId
  pid : PageId
  data : PageData
deriving DecidableEq, Repr

namespace LRUReplacer

/-- `LRUReplacer::Victim`: pop the back of the list (the least recently
inserted frame), or fail when the list is empty. -/
def Victim (l : List FrameId) : Option FrameId × List FrameId :=
  match l.getLast? with
  | none => (none, l)
  | some f => (some f, l.dropLast)

/-- `LRUReplacer::Pin`: erase the first occurrence of `f`, if present. -/
def Pin (l : List FrameId) (f : FrameId) : List FrameId := l.erase f

/-- `LRUReplacer::Unpin`: a no-op when `f` is already tracked, otherwise
insert at the front (most recently evictable). -/
def Unpin (l : List FrameId) (f : FrameId) : List FrameId :=
  if f ∈ l then l else f :: l

/-- `LRUReplacer::Size`. -/
def Size (l : List FrameId) : Nat := l.length

end LRUReplacer

/-- The buffer pool manager's state (including the disk manager's). -/
structure BPState where
  frames : List Page
  page_table : List (PageId × FrameId)
  free_list : List FrameId
  replacer : List FrameId
  disk : List (PageId × PageData)
  next_page_id : PageId
  dealloc_log : List PageId
deriving DecidableEq, Repr

/-- `pages_[fid]` (reads of an out-of-range index yield a default page). -/
def getFrame (s : BPState) (fid : FrameId) : Page :=
  s.frames.getD fid Page.init

/-- Assignment to `pages_[fid]`. -/
def setFrame (s : BPState) (fid : FrameId) (p : Page) : BPState :=
  { s with frames := s.frames.set fid p }

/-- `BufferPoolManager::BufferPoolManager`: fresh pages, every frame on
the free list, empty replacer, a disk manager with bump allocation. -/
def initState (pool_size : Nat) : BPState :=
  { frames := List.replicate pool_size Page.init
    page_table := []
    free_list := List.range pool_size
    replacer := []
    disk := []
    next_page_id := 0
    dealloc_log := [] }

/-- `BufferPoolManager::FlushPageImpl`.  Returns the C++ `bool`, the new
state, and the `WritePage` calls made. -/
def FlushPageImpl (s : BPState) (pid : PageId) : Bool × BPState × List WriteEv :=
  match alistLookup s.page_table pid with
  | none => (false, s, [])
  | some fid =>
    let pg := getFrame s fid
    if pg.is_dirty then
      let s₁ := { s with disk := diskWrite s.disk pg.page_id pg.data }
      let s₂ := setFrame s₁ fid { pg with is_dirty := false }
      (true, s₂, [⟨fid, pg.page_id, pg.data⟩])
    else (true, s, [])

/-- The shared frame-acquisition step of `FetchPageImpl` (lines 51-67)
and `NewPageImpl` (lines 124-140): free list first, then a replacer
victim, flushing a dirty victim (and clearing its flag) and erasing the
victim's old page-table entry. -/
def acquireFrame (s : BPState) : Option (FrameId × BPState × List WriteEv) :=
  match s.free_list with
  | fid :: rest => some (fid, { s with free_list := rest }, [])
  | [] =>
    match LRUReplacer.Victim s.replacer with
    | (none, _) => none
    | (some fid, rep) =>
      let s₁ := { s with replacer := rep }
      let victim := getFrame s₁ fid
      if victim.is_dirty then
        let r := FlushPageImpl s₁ victim.page_id
        let s₂ := setFrame r.2.1 fid { getFrame r.2.1 fid with is_dirty := false }
        some (fid, { s₂ with page_table := alistErase s₂.page_table victim.page_id }, r.2.2)
      else
        some (fid, { s₁ with page_table := alistErase s₁.page_table victim.page_id }, [])

/-- `BufferPoolManager::FetchPageImpl`.  The returned `Option FrameId`
models the `Page*` result.  On a miss, `ResetMemory` followed by the
full-page `ReadPage` leaves the frame's data equal to the disk content;
the frame-field updates are collapsed into one record update (the source
interleaves them with page-table updates that do not read the frame).
`is_dirty` is not assigned on this path in the source. -/
def FetchPageImpl (s : BPState) (pid : PageId) : Option FrameId × BPState × List WriteEv :=
  match alistLookup s.page_table pid with
  | some fid =>
    let s₁ := { s with replacer := LRUReplacer.Pin s.replacer fid }
    let pg := getFrame s₁ fid
    (some fid, setFrame s₁ fid { pg with pin_count := pg.pin_count + 1 }, [])
  | none =>
    match acquireFrame s with
    | none => (none, s, [])
    | some (fid, s₁, ws) =>
      let pg := getFrame s₁ fid
      let pg₃ := { pg with data := diskRead s₁.disk pid, page_id := pid, pin_count := 1 }
      let s₂ := setFrame s₁ fid pg₃
      let s₃ := { s₂ with page_table := ptInsert s₂.page_table pid fid }
      let s₄ := { s₃ with replacer := LRUReplacer.Pin s₃.replacer fid }
      (some fid, s₄, ws)

/-- `BufferPoolManager::UnpinPageImpl`.  Note that the source assigns
`is_dirty_ = is_dirty` outright. -/
def UnpinPageImpl (s : BPState) (pid : PageId) (d : Bool) : Bool × BPState :=
  match alistLookup s.page_table pid with
  | none => (false, s)
  | some fid =>
    let pg := getFrame s fid
    if pg.pin_count ≤ 0 then (false, s)
    else
      let pg₁ := { pg with pin_count := pg.pin_count - 1, is_dirty := d }
      let s₁ := setFrame s fid pg₁
      let s₂ :=
        if pg₁.pin_count = 0 then { s₁ with replacer := LRUReplacer.Unpin s₁.replacer fid }
        else s₁
      (true, s₂)

/-- `BufferPoolManager::NewPageImpl`.  The returned pair is the frame
and the page id written through the out-parameter; `AllocatePage` is the
bump counter `next_page_id`. -/
def NewPageImpl (s : BPState) : Option (FrameId × PageId) × BPState × List WriteEv :=
  match acquireFrame s with
  | none => (none, s, [])
  | some (fid, s₁, ws) =>
    let pid := s₁.next_page_id
    let s₂ := { s₁ with next_page_id := s₁.next_page_id + 1 }
    let pg := getFrame s₂ fid
    let pg₃ := { pg with page_id := pid, data := List.replicate PAGE_SIZE 0,
                         pin_count := 1, is_dirty := false }
    let s₃ := setFrame s₂ fid pg₃
    let s₄ := { s₃ with page_table := ptInsert s₃.page_table pid fid }
    let s₅ := { s₄ with replacer := LRUReplacer.Pin s₄.replacer fid }
    (some (fid, pid), s₅, ws)

/-- `BufferPoolManager::DeletePageImpl`.  The source pushes the frame on
the free list, erases the page-table entry and resets the frame, but
calls `DeallocatePage` only in the not-resident branch, never touches
the replacer, and returns `false` at the end of the successful branch. -/
def DeletePageImpl (s : BPState) (pid : PageId) : Bool × BPState :=
  match alistLookup s.page_table pid with
  | none => (true, { s with dealloc_log := pid :: s.dealloc_log })
  | some fid =>
    let pg := getFrame s fid
    if pg.pin_count > 0 then (false, s)
    else
      let s₁ := { s with free_list := s.free_list ++ [fid] }
      let s₂ := { s₁ with page_table := alistErase s₁.page_table pg.page_id }
      let pg₁ := { pg with data := List.replicate PAGE_SIZE 0,
                           page_id := INVALID_PAGE_ID, is_dirty := false, pin_count := 0 }
      (false, setFrame s₂ fid pg₁)

/-- The loop body of `FlushAllPagesImpl`: flush `pages_[i].page_id_` for
each frame index in order. -/
def flushLoop : List Nat → BPState → BPState × List WriteEv
  | [], s => (s, [])
  | i :: rest, s =>
    let r := FlushPageImpl s (getFrame s i).page_id
    let rr := flushLoop rest r.2.1
    (rr.1, r.2.2 ++ rr.2)

/-- `BufferPoolManager::FlushAllPagesImpl`. -/
def FlushAllPagesImpl (s : BPState) : BPState × List WriteEv :=
  flushLoop (List.range s.frames.length) s

/-- One completed public manager operation. -/
inductive MOp where
  | fetch (pid : PageId)
  | newPage
  | unpin (pid : PageId) (d : Bool)
  | flush (pid : PageId)
  | deletePage (pid : PageId)
  | flushAll
deriving DecidableEq, Repr

/-- The state after a completed operation. -/
def MOp.post (s : BPState) : MOp → BPState
  | .fetch pid => (FetchPageImpl s pid).2.1
  | .newPage => (NewPageImpl s).2.1
  | .unpin pid d => (UnpinPageImpl s pid d).2
  | .flush pid => (FlushPageImpl s pid).2.1
  | .deletePage pid => (DeletePageImpl s pid).2
  | .flushAll => (FlushAllPagesImpl s).1

/-- The `WritePage` calls an operation makes. -/
def MOp.writes (s : BPState) : MOp → List WriteEv
  | .fetch pid => (FetchPageImpl s pid).2.2
  | .newPage => (NewPageImpl s).2.2
  | .unpin _ _ => []
  | .flush pid => (FlushPageImpl s pid).2.2
  | .deletePage _ => []
  | .flushAll => (FlushAllPagesImpl s).2

/-- One `LRUReplacer` operation. -/
inductive ROp where
  | victim
  | pin (f : FrameId)
  | unpin (f : FrameId)
deriving DecidableEq, Repr

/-- The replacer list after one operation. -/
def rstep (l : List FrameId) : ROp → List FrameId
  | .victim => (LRUReplacer.Victim l).2
  | .pin f => LRUReplacer.Pin l f
  | .unpin f => LRUReplacer.Unpin l f

/-- The replacer list after a whole operation sequence, from empty. -/
def rrun (t : List ROp) : List FrameId := t.foldl rstep []

/-- Instrumented replacer: each tracked frame carries the value of a
counter that increments exactly at the `Unpin` calls that transition a
frame into the tracked set, so an entry's second component is the index
of its (latest) first-transitioning `Unpin`. -/
def istep : List (FrameId × Nat) × Nat → ROp → List (FrameId × Nat) × Nat
  | (l, c), .victim => (l.dropLast, c)
  | (l, c), .pin f => (l.eraseP (fun e => e.1 == f), c)
  | (l, c), .unpin f => if f ∈ l.map Prod.fst then (l, c) else ((f, c) :: l, c + 1)

/-- Instrumented run from the empty replacer. -/
def irun (t : List ROp) : List (FrameId × Nat) × Nat := t.foldl istep ([], 0)

/-- The invariant of instrumented runs: timestamps strictly decrease
from the front (most recent transition) to the back, and stay below the
clock. -/
def IInv (p : List (FrameId × Nat) × Nat) : Prop :=
  p.1.Pairwise (fun a b => b.2 < a.2) ∧ ∀ e ∈ p.1, e.2 < p.2

/-- One-frame pool after `NewPage` (page 0 in frame 0) and
`UnpinPage(0, false)`: page 0 resident, unpinned, frame 0 tracked by the
replacer. -/
def delTracePre : BPState :=
  (UnpinPageImpl (NewPageImpl (initState 1)).2.1 0 false).2

/-- One-frame pool after `NewPage`, `FetchPage(0)` and
`UnpinPage(0, true)`: page 0 resident in frame 0 with pin count 1 and
the dirty flag set. -/
def dirtyPre : BPState :=
  (UnpinPageImpl (FetchPageImpl (NewPageImpl (initState 1)).2.1 0).2.1 0 true).2

/-- Scenario S1: empty three-frame pool, page 7 on disk with content
`[170]`. -/
def s1State : BPState := { initState 3 with disk := [(7, [170])] }

/-- A pool holding one dirty, unpinned resident page with content `[7]`. -/
def w9State : BPState :=
  { frames := [{ page_id := 5, pin_count := 0, is_dirty := true, data := [7] }]
    page_table := [(5, 0)]
    free_list := []
    replacer := [0]
    disk := []
    next_page_id := 6
    dealloc_log := [] }

/-! ### Basic lemmas about the state helpers -/

theorem getD_set_self {α : Type} (l : List α) (i : Nat) (a d : α) (h : i < l.length) :
    (l.set i a).getD i d = a := by
  induction l generalizing i with
  | nil => simp at h
  | cons x xs ih =>
    cases i with
    | zero => rfl
    | succ n => exact ih n (by simpa using h)

theorem getD_set_ne {α : Type} (l : List α) (i j : Nat) (a d : α) (h : i ≠ j) :
    (l.set i a).getD j d = l.getD j d := by
  induction l generalizing i j with
  | nil => rfl
  | cons x xs ih =>
    cases i with
    | zero =>
      cases j with
      | zero => exact absurd rfl h
      | succ m => rfl
    | succ n =>
      cases j with
      | zero => rfl
      | succ m => exact ih n m (fun hh => h (by rw [hh]))

theorem getFrame_setFrame_self (s : BPState) (fid : FrameId) (p : Page)
    (h : fid < s.frames.length) : getFrame (setFrame s fid p) fid = p :=
  getD_set_self _ _ _ _ h

theorem getFrame_setFrame_ne (s : BPState) (fid j : FrameId) (p : Page)
    (h : fid ≠ j) : getFrame (setFrame s fid p) j = getFrame s j :=
  getD_set_ne _ _ _ _ _ h

theorem getFrame_setFrame_of_le (s : BPState) (fid : FrameId) (p : Page)
    (h : s.frames.length ≤ fid) : getFrame (setFrame s fid p) fid = getFrame s fid := by
  unfold getFrame setFrame
  rw [List.set_eq_of_length_le h]

/-- A dirty frame index is in range: the out-of-range default page is clean. -/
theorem is_dirty_lt (s : BPState) (fid : FrameId)
    (h : (getFrame s fid).is_dirty = true) : fid < s.frames.length := by
  by_contra hge
  have heq : getFrame s fid = Page.init :=
    List.getD_eq_default _ _ (Nat.le_of_not_lt hge)
  rw [heq] at h
  simp [Page.init] at h

theorem alistLookup_erase {β : Type} (l : List (PageId × β)) (k k' : PageId) :
    alistLookup (alistErase l k) k' = if k = k' then none else alistLookup l k' := by
  induction l with
  | nil => simp [alistErase, alistLookup]
  | cons e rest ih =>
    obtain ⟨a, b⟩ := e
    by_cases hak : a = k
    · subst hak
      have he : alistErase ((a, b) :: rest) a = alistErase rest a := by
        simp [alistErase]
      rw [he, ih]
      by_cases hkk : a = k' <;> simp [alistLookup, hkk]
    · simp only [alistErase, if_neg hak, alistLookup, ih]
      by_cases hk' : a = k'
      · have hkk : ¬ k = k' := fun hh => hak (hk'.trans hh.symm)
        simp [hk', hkk]
      · by_cases hkk : k = k' <;> simp [hk', hkk]

theorem alistLookup_ptInsert_self (pt : List (PageId × FrameId)) (pid : PageId)
    (fid : FrameId) (h : alistLookup pt pid = none) :
    alistLookup (ptInsert pt pid fid) pid = some fid := by
  simp [ptInsert, h, alistLookup]

theorem alistLookup_ptInsert_ne (pt : List (PageId × FrameId)) (pid : PageId)
    (fid : FrameId) (k : PageId) (h : pid ≠ k) :
    alistLookup (ptInsert pt pid fid) k = alistLookup pt k := by
  unfold ptInsert
  cases hl : alistLookup pt pid <;> simp [alistLookup, h]

theorem diskRead_diskWrite_ne (d : List (PageId × PageData)) (k k' : PageId)
    (v : PageData) (h : k ≠ k') : diskRead (diskWrite d k v) k' = diskRead d k' := by
  simp [diskRead, diskWrite, alistLookup, h, alistLookup_erase]

/-- `Victim` pops the back of the list in every case. -/
theorem victim_eq (l : List FrameId) :
    LRUReplacer.Victim l = (l.getLast?, l.dropLast) := by
  unfold LRUReplacer.Victim
  cases h : l.getLast? with
  | none =>
    have : l = [] := List.getLast?_eq_none_iff.mp h
    subst this
    rfl
  | some f => rfl

theorem mem_of_getLast?_eq_some {α : Type} {l : List α} {x : α}
    (h : l.getLast? = some x) : x ∈ l := by
  rcases List.mem_getLast?_eq_getLast (Option.mem_def.mpr h) with ⟨hne, rfl⟩
  exact List.getLast_mem hne

/-! ### Failure conditions of frame acquisition -/

theorem acquireFrame_cons (s : BPState) (f : FrameId) (rest : List FrameId)
    (h : s.free_list = f :: rest) :
    acquireFrame s = some (f, { s with free_list := rest }, []) := by
  unfold acquireFrame
  rw [h]

/-- Explicit form of the victim branch of `acquireFrame` (the victim's
frame is read before the replacer update, so `getFrame s f` and
`getFrame s₁ f` coincide). -/
theorem acquireFrame_victim_spec (s : BPState) (f : FrameId)
    (hf : s.free_list = []) (hr : s.replacer.getLast? = some f) :
    acquireFrame s =
      (let s₁ : BPState := { s with replacer := s.replacer.dropLast }
       if (getFrame s f).is_dirty = true then
         let r := FlushPageImpl s₁ (getFrame s f).page_id
         let s₂ := setFrame r.2.1 f { getFrame r.2.1 f with is_dirty := false }
         some (f, { s₂ with page_table := alistErase s₂.page_table (getFrame s f).page_id }, r.2.2)
       else
         some (f, { s₁ with page_table := alistErase s₁.page_table (getFrame s f).page_id }, [])) := by
  unfold acquireFrame
  rw [hf, victim_eq, hr]
  rfl

theorem acquireFrame_ne_none_of_victim (s : BPState) (f : FrameId)
    (hf : s.free_list = []) (hr : s.replacer.getLast? = some f) :
    acquireFrame s ≠ none := by
  rw [acquireFrame_victim_spec s f hf hr]
  by_cases hd : (getFrame s f).is_dirty = true <;> simp [hd]

theorem acquireFrame_eq_none_iff (s : BPState) :
    acquireFrame s = none ↔ s.free_list = [] ∧ s.replacer = [] := by
  constructor
  · intro hco
    cases hf : s.free_list with
    | cons f rest =>
      rw [acquireFrame_cons s f rest hf] at hco
      cases hco
    | nil =>
      refine ⟨rfl, ?_⟩
      cases hr : s.replacer.getLast? with
      | none => exact List.getLast?_eq_none_iff.mp hr
      | some f => exact absurd hco (acquireFrame_ne_none_of_victim s f hf hr)
  · rintro ⟨h1, h2⟩
    unfold acquireFrame
    rw [h1, victim_eq, h2]
    rfl

theorem fetchPage_isNone (s : BPState) (pid : PageId)
    (hmiss : alistLookup s.page_table pid = none) :
    ((FetchPageImpl s pid).1 = none ↔ acquireFrame s = none) := by
  unfold FetchPageImpl
  rw [hmiss]
  cases ha : acquireFrame s with
  | none => simp
  | some x =>
    obtain ⟨fid, s₁, ws⟩ := x
    simp

theorem newPage_isNone (s : BPState) :
    ((NewPageImpl s).1 = none ↔ acquireFrame s = none) := by
  unfold NewPageImpl
  cases ha : acquireFrame s with
  | none => simp
  | some x =>
    obtain ⟨fid, s₁, ws⟩ := x
    simp

/-! ### FlushPage characterisation -/

theorem flush_miss (s : BPState) (pid : PageId)
    (h : alistLookup s.page_table pid = none) :
    FlushPageImpl s pid = (false, s, []) := by
  unfold FlushPageImpl
  rw [h]

theorem flush_spec (s : BPState) (pid : PageId) (fid : FrameId)
    (h : alistLookup s.page_table pid = some fid) :
    FlushPageImpl s pid =
      if (getFrame s fid).is_dirty = true then
        (true,
         setFrame { s with disk := diskWrite s.disk (getFrame s fid).page_id (getFrame s fid).data }
           fid { getFrame s fid with is_dirty := false },
         [⟨fid, (getFrame s fid).page_id, (getFrame s fid).data⟩])
      else (true, s, []) := by
  unfold FlushPageImpl
  rw [h]

theorem flush_page_table_eq (s : BPState) (pid : PageId) :
    ((FlushPageImpl s pid).2.1).page_table = s.page_table := by
  cases h : alistLookup s.page_table pid with
  | none => rw [flush_miss s pid h]
  | some fid =>
    rw [flush_spec s pid fid h]
    by_cases hd : (getFrame s fid).is_dirty = true <;> simp [hd, setFrame]

theorem flush_frames_length (s : BPState) (pid : PageId) :
    ((FlushPageImpl s pid).2.1).frames.length = s.frames.length := by
  cases h : alistLookup s.page_table pid with
  | none => rw [flush_miss s pid h]
  | some fid =>
    rw [flush_spec s pid fid h]
    by_cases hd : (getFrame s fid).is_dirty = true <;> simp [hd, setFrame]

/-- A flush changes a frame at most by clearing its dirty flag. -/
theorem flush_getFrame_cases (s : BPState) (pid : PageId) (j : FrameId) :
    getFrame (FlushPageImpl s pid).2.1 j = getFrame s j ∨
    getFrame (FlushPageImpl s pid).2.1 j = { getFrame s j with is_dirty := false } := by
  cases h : alistLookup s.page_table pid with
  | none =>
    left
    rw [flush_miss s pid h]
  | some fid =>
    rw [flush_spec s pid fid h]
    by_cases hd : (getFrame s fid).is_dirty = true
    · rw [if_pos hd]
      dsimp only
      by_cases hj : fid = j
      · subst hj
        right
        rw [getFrame_setFrame_self]
        exact is_dirty_lt s fid hd
      · left
        rw [getFrame_setFrame_ne _ _ _ _ hj]
        rfl
    · rw [if_neg hd]
      left
      rfl

theorem flush_dirty_mono (s : BPState) (pid : PageId) (j : FrameId)
    (h : (getFrame (FlushPageImpl s pid).2.1 j).is_dirty = true) :
    (getFrame s j).is_dirty = true := by
  rcases flush_getFrame_cases s pid j with hc | hc <;> rw [hc] at h
  · exact h
  · simp at h

theorem flush_clean_mono (s : BPState) (pid : PageId) (j : FrameId)
    (h : (getFrame s j).is_dirty = false) :
    (getFrame (FlushPageImpl s pid).2.1 j).is_dirty = false := by
  cases hb : (getFrame (FlushPageImpl s pid).2.1 j).is_dirty with
  | false => rfl
  | true =>
    rw [flush_dirty_mono s pid j hb] at h
    cases h

theorem flush_page_id_eq (s : BPState) (pid : PageId) (j : FrameId) :
    (getFrame (FlushPageImpl s pid).2.1 j).page_id = (getFrame s j).page_id := by
  rcases flush_getFrame_cases s pid j with hc | hc <;> rw [hc]

theorem flush_data_eq (s : BPState) (pid : PageId) (j : FrameId) :
    (getFrame (FlushPageImpl s pid).2.1 j).data = (getFrame s j).data := by
  rcases flush_getFrame_cases s pid j with hc | hc <;> rw [hc]

/-- Every write of `FlushPageImpl` comes from a frame that is dirty
before the write and clean after the flush, and carries exactly that
frame's page id and data. -/
theorem flush_writes_sound (s : BPState) (pid : PageId) (w : WriteEv)
    (hw : w ∈ (FlushPageImpl s pid).2.2) :
    (getFrame s w.frame).is_dirty = true ∧
    w.pid = (getFrame s w.frame).page_id ∧
    w.data = (getFrame s w.frame).data ∧
    (getFrame (FlushPageImpl s pid).2.1 w.frame).is_dirty = false := by
  cases h : alistLookup s.page_table pid with
  | none =>
    rw [flush_miss s pid h] at hw
    cases hw
  | some fid =>
    rw [flush_spec s pid fid h] at hw ⊢
    by_cases hd : (getFrame s fid).is_dirty = true
    · rw [if_pos hd] at hw ⊢
      dsimp only at hw ⊢
      simp only [List.mem_singleton] at hw
      subst hw
      dsimp only
      refine ⟨hd, rfl, rfl, ?_⟩
      rw [getFrame_setFrame_self]
      exact is_dirty_lt s fid hd
    · rw [if_neg hd] at hw
      dsimp only at hw
      cases hw

/-! ### Writes of the compound operations -/

theorem getFrame_pt_update (x : BPState) (pt : List (PageId × FrameId)) (j : FrameId) :
    getFrame { x with page_table := pt } j = getFrame x j := rfl

theorem getFrame_meta_update (x : BPState) (pt : List (PageId × FrameId))
    (rp : List FrameId) (j : FrameId) :
    getFrame { x with page_table := pt, replacer := rp } j = getFrame x j := rfl

theorem flushLoop_clean_mono (idxs : List Nat) (s : BPState) (j : FrameId)
    (h : (getFrame s j).is_dirty = false) :
    (getFrame (flushLoop idxs s).1 j).is_dirty = false := by
  induction idxs generalizing s with
  | nil => exact h
  | cons i rest ih => exact ih _ (flush_clean_mono _ _ _ h)

/-- Every write of the `FlushAllPages` loop comes from a frame dirty in
the pre-state (flushes only clear flags and never touch page ids or
data), and that frame is clean when the loop finishes. -/
theorem flushLoop_sound (idxs : List Nat) (s : BPState) (w : WriteEv)
    (hw : w ∈ (flushLoop idxs s).2) :
    (getFrame s w.frame).is_dirty = true ∧
    w.pid = (getFrame s w.frame).page_id ∧
    w.data = (getFrame s w.frame).data ∧
    (getFrame (flushLoop idxs s).1 w.frame).is_dirty = false := by
  induction idxs generalizing s with
  | nil => cases hw
  | cons i rest ih =>
    simp only [flushLoop, List.mem_append] at hw
    rcases hw with hw1 | hw2
    · have h1 := flush_writes_sound s (getFrame s i).page_id w hw1
      exact ⟨h1.1, h1.2.1, h1.2.2.1,
        flushLoop_clean_mono rest _ w.frame h1.2.2.2⟩
    · have h2 := ih _ hw2
      refine ⟨flush_dirty_mono _ _ _ h2.1, ?_, ?_, h2.2.2.2⟩
      · rw [h2.2.1, flush_page_id_eq]
      · rw [h2.2.2.1, flush_data_eq]

/-- Every write of `acquireFrame` (the dirty-victim write-back) comes
from a frame dirty in the pre-state and clean in the acquired state. -/
theorem acquire_writes_sound (s : BPState) (fid : FrameId) (s' : BPState)
    (ws : List WriteEv) (h : acquireFrame s = some (fid, s', ws))
    (w : WriteEv) (hw : w ∈ ws) :
    (getFrame s w.frame).is_dirty = true ∧
    w.pid = (getFrame s w.frame).page_id ∧
    w.data = (getFrame s w.frame).data ∧
    (getFrame s' w.frame).is_dirty = false := by
  cases hfl : s.free_list with
  | cons f rest =>
    rw [acquireFrame_cons s f rest hfl] at h
    simp only [Option.some.injEq, Prod.mk.injEq] at h
    obtain ⟨-, -, h3⟩ := h
    rw [← h3] at hw
    cases hw
  | nil =>
    cases hr : s.replacer.getLast? with
    | none =>
      have hnone : acquireFrame s = none :=
        (acquireFrame_eq_none_iff s).mpr ⟨hfl, List.getLast?_eq_none_iff.mp hr⟩
      rw [hnone] at h
      cases h
    | some f =>
      rw [acquireFrame_victim_spec s f hfl hr] at h
      by_cases hd : (getFrame s f).is_dirty = true
      · rw [if_pos hd] at h
        simp only [Option.some.injEq, Prod.mk.injEq] at h
        obtain ⟨-, hst, hws⟩ := h
        subst hws
        have hs := flush_writes_sound { s with replacer := s.replacer.dropLast }
          (getFrame s f).page_id w hw
        refine ⟨hs.1, hs.2.1, hs.2.2.1, ?_⟩
        rw [← hst, getFrame_pt_update]
        by_cases hj : w.frame = f
        · rw [hj] at hs ⊢
          by_cases hlen :
              f < (FlushPageImpl { s with replacer := s.replacer.dropLast }
                (getFrame s f).page_id).2.1.frames.length
          · rw [getFrame_setFrame_self]
            exact hlen
          · rw [getFrame_setFrame_of_le]
            · exact hs.2.2.2
            · exact Nat.le_of_not_lt hlen
        · rw [getFrame_setFrame_ne _ _ _ _ (fun hh => hj hh.symm)]
          exact hs.2.2.2
      · rw [if_neg hd] at h
        simp only [Option.some.injEq, Prod.mk.injEq] at h
        obtain ⟨-, -, hws⟩ := h
        rw [← hws] at hw
        cases hw

/-- The page-table miss branch of `FetchPageImpl`, expressed through the
acquired frame. -/
theorem fetch_miss_spec (s : BPState) (pid : PageId) (fid : FrameId)
    (s' : BPState) (ws : List WriteEv)
    (hmiss : alistLookup s.page_table pid = none)
    (ha : acquireFrame s = some (fid, s', ws)) :
    FetchPageImpl s pid =
      (some fid,
       { (setFrame s' fid
            { getFrame s' fid with
                data := diskRead s'.disk pid, page_id := pid, pin_count := 1 }) with
         page_table := ptInsert s'.page_table pid fid,
         replacer := LRUReplacer.Pin s'.replacer fid },
       ws) := by
  unfold FetchPageImpl
  rw [hmiss, ha]
  rfl

/-- `NewPageImpl`, expressed through the acquired frame. -/
theorem newpage_spec (s : BPState) (fid : FrameId) (s' : BPState)
    (ws : List WriteEv) (ha : acquireFrame s = some (fid, s', ws)) :
    NewPageImpl s =
      (some (fid, s'.next_page_id),
       { (setFrame { s' with next_page_id := s'.next_page_id + 1 } fid
            { getFrame s' fid with
                page_id := s'.next_page_id, data := List.replicate PAGE_SIZE 0,
                pin_count := 1, is_dirty := false }) with
         page_table := ptInsert s'.page_table s'.next_page_id fid,
         replacer := LRUReplacer.Pin s'.replacer fid },
       ws) := by
  unfold NewPageImpl
  rw [ha]
  rfl

/-! ### Claim theorems -/

/-- C1: the claim fails on the code.  On the one-frame pool reached by
`NewPage`; `UnpinPage(0, false)`, page 0 is resident with pin count 0;
`DeletePage(0)` does delete it (the page-table entry is gone afterwards)
yet returns `false`, where the claim requires `true` on successful
deletion of a resident page with pin count 0. -/
theorem C1_delete_success_returns_false :
    alistLookup delTracePre.page_table 0 = some 0 ∧
    (getFrame delTracePre 0).pin_count = 0 ∧
    (DeletePageImpl delTracePre 0).1 = false ∧
    alistLookup (DeletePageImpl delTracePre 0).2.page_table 0 = none := by decide

/-- C2: the claim fails on the code.  On the one-frame pool reached by
`NewPage`; `FetchPage(0)`; `UnpinPage(0, true)`, page 0 is resident with
pin count 1 and the dirty flag set; `UnpinPage(0, false)` overwrites the
flag with `false` (`is_dirty_ = is_dirty`), where the claim requires the
dirty flag to remain `true` (sticky). -/
theorem C2_unpin_false_clears_dirty :
    (getFrame dirtyPre 0).is_dirty = true ∧
    (getFrame dirtyPre 0).pin_count > 0 ∧
    (getFrame (UnpinPageImpl dirtyPre 0 false).2 0).is_dirty = false := by decide

/-- C3: the claim fails on the code.  The state reached from
`initState 1` by the completed operations `NewPage`; `UnpinPage(0, false)`;
`DeletePage(0)` has frame 0 on the free list and in the replacer at the
same time (`DeletePageImpl` never removes the victim frame from the
replacer), so the three sets are not pairwise disjoint. -/
theorem C3_free_list_replacer_not_disjoint :
    0 ∈ (DeletePageImpl delTracePre 0).2.free_list ∧
    0 ∈ (DeletePageImpl delTracePre 0).2.replacer := by decide

/-- C4: the claim fails on the code.  Deleting resident unpinned page 0
removes the page-table entry and pushes frame 0 onto the free list, but
leaves frame 0 in the replacer and never calls
`DiskManager::DeallocatePage` (the deallocation log stays empty), where
the claim requires both. -/
theorem C4_delete_omits_replacer_and_dealloc :
    alistLookup (DeletePageImpl delTracePre 0).2.page_table 0 = none ∧
    (0 : FrameId) ∈ (DeletePageImpl delTracePre 0).2.free_list ∧
    (getFrame (DeletePageImpl delTracePre 0).2 0).page_id = INVALID_PAGE_ID ∧
    0 ∈ (DeletePageImpl delTracePre 0).2.replacer ∧
    (DeletePageImpl delTracePre 0).2.dealloc_log = [] := by decide

/-- C7: on a page-table miss, `FetchPage` and `NewPage` return null
exactly when the free list is empty and the replacer has no victim; in
every other case they return a frame. -/
theorem C7_pool_exhausted_iff (s : BPState) (pid : PageId)
    (hmiss : alistLookup s.page_table pid = none) :
    ((FetchPageImpl s pid).1 = none ↔ s.free_list = [] ∧ s.replacer = []) ∧
    ((NewPageImpl s).1 = none ↔ s.free_list = [] ∧ s.replacer = []) := by
  constructor
  · rw [fetchPage_isNone s pid hmiss]
    exact acquireFrame_eq_none_iff s
  · rw [newPage_isNone s]
    exact acquireFrame_eq_none_iff s

/-- Witness for C7 at the empty pool: both operations fail, and on a
one-frame pool with a free frame both succeed. -/
theorem C7_pool_exhausted_witness :
    (FetchPageImpl (initState 0) 5).1 = none ∧ (NewPageImpl (initState 0)).1 = none ∧
    ¬((NewPageImpl (initState 1)).1 = none) := by
  have h0 := C7_pool_exhausted_iff (initState 0) 5 (by decide)
  have h1 := C7_pool_exhausted_iff (initState 1) 5 (by decide)
  refine ⟨h0.1.mpr ⟨by decide, by decide⟩, h0.2.mpr ⟨by decide, by decide⟩, ?_⟩
  intro hco
  exact absurd (h1.2.mp hco).1 (by decide)

/-- C8: `FlushPage` returns false exactly when the page is not in the
page table; on a resident page two successive flushes with no
intervening mutation both return true, perform at most one disk write
in total, and after the first call the frame's dirty flag is false. -/
theorem C8_flush_idempotent (s : BPState) (pid : PageId) :
    ((FlushPageImpl s pid).1 = false ↔ alistLookup s.page_table pid = none) ∧
    (∀ fid, alistLookup s.page_table pid = some fid →
      (FlushPageImpl s pid).1 = true ∧
      (FlushPageImpl (FlushPageImpl s pid).2.1 pid).1 = true ∧
      ((FlushPageImpl s pid).2.2 ++ (FlushPageImpl (FlushPageImpl s pid).2.1 pid).2.2).length ≤ 1 ∧
      (getFrame (FlushPageImpl s pid).2.1 fid).is_dirty = false) := by
  constructor
  · cases h : alistLookup s.page_table pid with
    | none =>
      rw [flush_miss s pid h]
      simp
    | some fid =>
      rw [flush_spec s pid fid h]
      by_cases hd : (getFrame s fid).is_dirty = true <;> simp [hd, h]
  · intro fid h
    by_cases hd : (getFrame s fid).is_dirty = true
    · have hlt : fid < s.frames.length := is_dirty_lt s fid hd
      have h2 : alistLookup ((FlushPageImpl s pid).2.1).page_table pid = some fid := by
        rw [flush_page_table_eq s pid]
        exact h
      have hg : (getFrame (FlushPageImpl s pid).2.1 fid).is_dirty = false := by
        rw [flush_spec s pid fid h, if_pos hd]
        dsimp only
        rw [getFrame_setFrame_self]
        exact hlt
      have hsecond : FlushPageImpl (FlushPageImpl s pid).2.1 pid =
          (true, (FlushPageImpl s pid).2.1, []) := by
        rw [flush_spec _ pid fid h2, if_neg (by rw [hg]; exact Bool.false_ne_true)]
      have hfirst1 : (FlushPageImpl s pid).1 = true := by
        rw [flush_spec s pid fid h, if_pos hd]
      have hw1 : (FlushPageImpl s pid).2.2 =
          [⟨fid, (getFrame s fid).page_id, (getFrame s fid).data⟩] := by
        rw [flush_spec s pid fid h, if_pos hd]
      refine ⟨hfirst1, by rw [hsecond], ?_, hg⟩
      rw [hw1, hsecond]
      simp
    · have hdd : (getFrame s fid).is_dirty = false := by
        cases hv : (getFrame s fid).is_dirty
        · rfl
        · exact absurd hv hd
      have hfir : FlushPageImpl s pid = (true, s, []) := by
        rw [flush_spec s pid fid h, if_neg hd]
      simp [hfir, hdd]

/-- Witness for C8 on a one-frame pool holding a dirty resident page. -/
theorem C8_flush_idempotent_witness :
    (FlushPageImpl dirtyPre 0).1 = true ∧
    (FlushPageImpl (FlushPageImpl dirtyPre 0).2.1 0).1 = true ∧
    ((FlushPageImpl dirtyPre 0).2.2 ++
      (FlushPageImpl (FlushPageImpl dirtyPre 0).2.1 0).2.2).length ≤ 1 ∧
    (getFrame (FlushPageImpl dirtyPre 0).2.1 0).is_dirty = false :=
  (C8_flush_idempotent dirtyPre 0).2 0 (by decide)

/-- C9: every `DiskManager::WritePage` call made by any manager
operation (`WritePage` is reached only through `FlushPageImpl`) writes a
frame whose dirty flag is true at the moment of the write — the event
carries exactly that frame's page id and data — and that frame's dirty
flag is false in the state the operation leaves behind, so a clean page
is never written and the flag is cleared before any further operation
observes the frame. -/
theorem C9_write_only_when_dirty (s : BPState) (op : MOp) (w : WriteEv)
    (hw : w ∈ MOp.writes s op) :
    (getFrame s w.frame).is_dirty = true ∧
    w.pid = (getFrame s w.frame).page_id ∧
    w.data = (getFrame s w.frame).data ∧
    (getFrame (MOp.post s op) w.frame).is_dirty = false := by
  cases op with
  | unpin pid d => simp [MOp.writes] at hw
  | deletePage pid => simp [MOp.writes] at hw
  | flush pid => exact flush_writes_sound s pid w hw
  | flushAll => exact flushLoop_sound (List.range s.frames.length) s w hw
  | fetch pid =>
    cases hl : alistLookup s.page_table pid with
    | some fid =>
      have hnil : (FetchPageImpl s pid).2.2 = [] := by
        unfold FetchPageImpl
        rw [hl]
      simp only [MOp.writes] at hw
      rw [hnil] at hw
      cases hw
    | none =>
      cases ha : acquireFrame s with
      | none =>
        have hnil : (FetchPageImpl s pid).2.2 = [] := by
          unfold FetchPageImpl
          rw [hl, ha]
        simp only [MOp.writes] at hw
        rw [hnil] at hw
        cases hw
      | some x =>
        obtain ⟨fid, s', ws⟩ := x
        have hspec := fetch_miss_spec s pid fid s' ws hl ha
        simp only [MOp.writes, hspec] at hw
        have hs := acquire_writes_sound s fid s' ws ha w hw
        refine ⟨hs.1, hs.2.1, hs.2.2.1, ?_⟩
        simp only [MOp.post, hspec]
        rw [getFrame_meta_update]
        by_cases hj : w.frame = fid
        · rw [hj] at hs ⊢
          by_cases hlen : fid < s'.frames.length
          · rw [getFrame_setFrame_self]
            · exact hs.2.2.2
            · exact hlen
          · rw [getFrame_setFrame_of_le]
            · exact hs.2.2.2
            · exact Nat.le_of_not_lt hlen
        · rw [getFrame_setFrame_ne _ _ _ _ (fun hh => hj hh.symm)]
          exact hs.2.2.2
  | newPage =>
    cases ha : acquireFrame s with
    | none =>
      have hnil : (NewPageImpl s).2.2 = [] := by
        unfold NewPageImpl
        rw [ha]
      simp only [MOp.writes] at hw
      rw [hnil] at hw
      cases hw
    | some x =>
      obtain ⟨fid, s', ws⟩ := x
      have hspec := newpage_spec s fid s' ws ha
      simp only [MOp.writes, hspec] at hw
      have hs := acquire_writes_sound s fid s' ws ha w hw
      refine ⟨hs.1, hs.2.1, hs.2.2.1, ?_⟩
      simp only [MOp.post, hspec]
      rw [getFrame_meta_update]
      by_cases hj : w.frame = fid
      · rw [hj] at hs ⊢
        by_cases hlen :
            fid < ({ s' with next_page_id := s'.next_page_id + 1 } : BPState).frames.length
        · rw [getFrame_setFrame_self]
          exact hlen
        · rw [getFrame_setFrame_of_le]
          · exact hs.2.2.2
          · exact Nat.le_of_not_lt hlen
      · rw [getFrame_setFrame_ne _ _ _ _ (fun hh => hj hh.symm)]
        exact hs.2.2.2

/-- Witness for C9: flushing the dirty page 5 of `w9State` emits the
write of frame 0's contents; frame 0 is dirty before and clean after. -/
theorem C9_write_only_when_dirty_witness :
    (getFrame w9State 0).is_dirty = true ∧
    (5 : PageId) = (getFrame w9State 0).page_id ∧
    (getFrame (MOp.post w9State (.flush 5)) 0).is_dirty = false := by
  have h := C9_write_only_when_dirty w9State (.flush 5) ⟨0, 5, [7]⟩ (by decide)
  exact ⟨h.1, h.2.1, h.2.2.2⟩

/-- C10: when `NewPage` fails it has mutated nothing: the whole state
(page table, free list, frames, replacer, disk, the `AllocatePage` bump
counter and the deallocation log) is unchanged and no write was issued;
the out page-id parameter is not written since no pair is returned. -/
theorem C10_newpage_failure_atomic (s : BPState)
    (h : (NewPageImpl s).1 = none) :
    (NewPageImpl s).2.1 = s ∧ (NewPageImpl s).2.2 = [] := by
  unfold NewPageImpl at h ⊢
  cases ha : acquireFrame s with
  | none => simp
  | some x =>
    obtain ⟨fid, s₁, ws⟩ := x
    rw [ha] at h
    simp at h

/-- Witness for C10 on the empty pool. -/
theorem C10_newpage_failure_atomic_witness :
    (NewPageImpl (initState 0)).2.1 = initState 0 ∧
    (NewPageImpl (initState 0)).2.2 = [] :=
  C10_newpage_failure_atomic (initState 0) (by decide)

/-! ### LRU replacer ordering (C5) -/

theorem map_fst_eraseP (l : List (FrameId × Nat)) (f : FrameId) :
    (l.eraseP (fun e => e.1 == f)).map Prod.fst = (l.map Prod.fst).erase f := by
  induction l with
  | nil => rfl
  | cons e rest ih =>
    obtain ⟨a, b⟩ := e
    by_cases h : a = f
    · subst h
      simp [List.eraseP_cons, List.erase_cons]
    · simp [List.eraseP_cons, List.erase_cons, h, ih]

/-- One instrumented step projects onto one concrete replacer step. -/
theorem istep_map (p : List (FrameId × Nat) × Nat) (op : ROp) :
    ((istep p op).1).map Prod.fst = rstep (p.1.map Prod.fst) op := by
  obtain ⟨l, c⟩ := p
  cases op with
  | victim =>
    simp only [istep, rstep, victim_eq, List.map_dropLast]
  | pin f =>
    simpa [istep, rstep, LRUReplacer.Pin] using map_fst_eraseP l f
  | unpin f =>
    by_cases hmem : f ∈ l.map Prod.fst <;>
      simp [istep, rstep, LRUReplacer.Unpin, hmem]

theorem irun_map (t : List ROp) : rrun t = ((irun t).1).map Prod.fst := by
  have key : ∀ p : List (FrameId × Nat) × Nat,
      (t.foldl istep p).1.map Prod.fst = t.foldl rstep (p.1.map Prod.fst) := by
    induction t with
    | nil => intro p; rfl
    | cons op rest ih =>
      intro p
      rw [List.foldl_cons, List.foldl_cons, ih, istep_map]
  exact (key ([], 0)).symm

theorem istep_inv (p : List (FrameId × Nat) × Nat) (op : ROp) (h : IInv p) :
    IInv (istep p op) := by
  obtain ⟨l, c⟩ := p
  obtain ⟨hpw, hbound⟩ := h
  cases op with
  | victim =>
    exact ⟨hpw.sublist (List.dropLast_sublist l),
      fun e he => hbound e ((List.dropLast_sublist l).subset he)⟩
  | pin f =>
    exact ⟨hpw.sublist (List.eraseP_sublist l),
      fun e he => hbound e ((List.eraseP_sublist l).subset he)⟩
  | unpin f =>
    by_cases hmem : f ∈ l.map Prod.fst
    · simp only [istep, if_pos hmem]
      exact ⟨hpw, hbound⟩
    · simp only [istep, if_neg hmem]
      refine ⟨List.pairwise_cons.mpr ⟨fun e he => hbound e he, hpw⟩, ?_⟩
      intro e he
      rcases List.mem_cons.mp he with he | he
      · rw [he]
        exact Nat.lt_succ_self c
      · exact Nat.lt_trans (hbound e he) (Nat.lt_succ_self c)

theorem irun_inv (t : List ROp) : IInv (irun t) := by
  have key : ∀ p : List (FrameId × Nat) × Nat, IInv p → IInv (t.foldl istep p) := by
    induction t with
    | nil => exact fun p h => h
    | cons op rest ih =>
      intro p h
      rw [List.foldl_cons]
      exact ih _ (istep_inv p op h)
  exact key ([], 0) ⟨List.Pairwise.nil, by simp⟩

/-- In a front-decreasing list the last entry has the least timestamp. -/
theorem pairwise_last_min (l : List (FrameId × Nat)) (x : FrameId × Nat)
    (hpw : l.Pairwise (fun a b => b.2 < a.2)) (hlast : l.getLast? = some x) :
    ∀ e ∈ l, x.2 ≤ e.2 := by
  induction l with
  | nil => cases hlast
  | cons a rest ih =>
    intro e he
    cases hre : rest with
    | nil =>
      subst hre
      have hx : a = x := by
        rw [List.getLast?_singleton] at hlast
        exact Option.some.inj hlast
      rcases List.mem_cons.mp he with he | he
      · rw [he, ← hx]
      · cases he
    | cons b rest' =>
      subst hre
      rw [List.getLast?_cons_cons] at hlast
      have hpw' := List.pairwise_cons.mp hpw
      rcases List.mem_cons.mp he with he | he
      · have hxmem : x ∈ b :: rest' := mem_of_getLast?_eq_some hlast
        rw [he]
        exact Nat.le_of_lt (hpw'.1 x hxmem)
      · exact ih hpw'.2 hlast e he

/-! ### Victim acquisition (C6) -/

/-- What `acquireFrame` guarantees about the acquired state on the
victim path, given the standard page-table consistency of the victim
frame. -/
theorem acquire_victim_props (s : BPState) (v : FrameId) (s' : BPState)
    (ws : List WriteEv) (hfl : s.free_list = [])
    (hlast : s.replacer.getLast? = some v)
    (hpt : alistLookup s.page_table (getFrame s v).page_id = some v)
    (hvlt : v < s.frames.length)
    (ha : acquireFrame s = some (v, s', ws)) :
    (getFrame s' v).is_dirty = false ∧
    s'.page_table = alistErase s.page_table (getFrame s v).page_id ∧
    s'.frames.length = s.frames.length ∧
    (∀ q, q ≠ (getFrame s v).page_id → diskRead s'.disk q = diskRead s.disk q) ∧
    ((getFrame s v).is_dirty = true →
      ws = [⟨v, (getFrame s v).page_id, (getFrame s v).data⟩]) ∧
    ((getFrame s v).is_dirty = false → ws = []) := by
  rw [acquireFrame_victim_spec s v hfl hlast] at ha
  dsimp only at ha
  by_cases hd : (getFrame s v).is_dirty = true
  · rw [if_pos hd] at ha
    have hptSD : alistLookup
        ({ s with replacer := s.replacer.dropLast } : BPState).page_table
        (getFrame s v).page_id = some v := hpt
    have hdSD : (getFrame ({ s with replacer := s.replacer.dropLast } : BPState) v).is_dirty
        = true := hd
    rw [flush_spec _ _ v hptSD, if_pos hdSD] at ha
    dsimp only at ha
    simp only [Option.some.injEq, Prod.mk.injEq] at ha
    obtain ⟨-, hs', hws⟩ := ha
    refine ⟨?_, ?_, ?_, ?_, ?_, ?_⟩
    · rw [← hs', getFrame_pt_update, getFrame_setFrame_self]
      simp only [setFrame, List.length_set]
      exact hvlt
    · rw [← hs']
      rfl
    · rw [← hs']
      simp only [setFrame, List.length_set]
    · intro q hq
      rw [← hs']
      exact diskRead_diskWrite_ne _ _ q _ (fun hh => hq hh.symm)
    · intro _
      rw [← hws]
      rfl
    · intro hcl
      rw [hd] at hcl
      cases hcl
  · rw [if_neg hd] at ha
    simp only [Option.some.injEq, Prod.mk.injEq] at ha
    obtain ⟨-, hs', hws⟩ := ha
    have hcl : (getFrame s v).is_dirty = false := by
      cases hv : (getFrame s v).is_dirty
      · rfl
      · exact absurd hv hd
    refine ⟨?_, ?_, ?_, ?_, ?_, ?_⟩
    · rw [← hs']
      exact hcl
    · rw [← hs']
    · rw [← hs']
    · intro q hq
      rw [← hs']
    · intro hdd
      rw [hdd] at hcl
      cases hcl
    · intro _
      rw [← hws]

/-- C6: on a page-table miss that returns a frame, `FetchPage` obtained
the frame from the free list first (with no disk write) or else as the
replacer victim (writing back a dirty victim — clearing its flag — and
erasing the victim's old page-table entry), and the returned frame holds
`pid` with pin count 1, a clear dirty flag, and the page's disk content,
with `(pid, fid)` inserted in the page table. -/
theorem C6_fetch_miss_postconditions (s : BPState) (pid : PageId) (fid : FrameId)
    (hmiss : alistLookup s.page_table pid = none)
    (hfree : ∀ f ∈ s.free_list, (getFrame s f).is_dirty = false)
    (hfreelt : ∀ f ∈ s.free_list, f < s.frames.length)
    (hrep : ∀ f ∈ s.replacer,
      alistLookup s.page_table (getFrame s f).page_id = some f ∧ f < s.frames.length)
    (hres : (FetchPageImpl s pid).1 = some fid) :
    (getFrame (FetchPageImpl s pid).2.1 fid).page_id = pid ∧
    (getFrame (FetchPageImpl s pid).2.1 fid).pin_count = 1 ∧
    (getFrame (FetchPageImpl s pid).2.1 fid).is_dirty = false ∧
    (getFrame (FetchPageImpl s pid).2.1 fid).data = diskRead s.disk pid ∧
    alistLookup ((FetchPageImpl s pid).2.1).page_table pid = some fid ∧
    (∀ g rest, s.free_list = g :: rest → fid = g ∧ (FetchPageImpl s pid).2.2 = []) ∧
    (s.free_list = [] →
      (LRUReplacer.Victim s.replacer).1 = some fid ∧
      alistLookup ((FetchPageImpl s pid).2.1).page_table (getFrame s fid).page_id = none ∧
      ((getFrame s fid).is_dirty = true →
        (FetchPageImpl s pid).2.2 =
          [⟨fid, (getFrame s fid).page_id, (getFrame s fid).data⟩]) ∧
      ((getFrame s fid).is_dirty = false → (FetchPageImpl s pid).2.2 = [])) := by
  cases hfl : s.free_list with
  | cons g rest =>
    have ha := acquireFrame_cons s g rest hfl
    have hspec := fetch_miss_spec s pid g _ _ hmiss ha
    have hfg : g = fid := by
      rw [hspec] at hres
      exact Option.some.inj hres
    subst hfg
    have hmem : g ∈ s.free_list := by
      rw [hfl]
      exact List.mem_cons_self g rest
    have hlt : g < s.frames.length := hfreelt g hmem
    rw [hspec]
    dsimp only
    rw [getFrame_meta_update, getFrame_setFrame_self]
    · refine ⟨rfl, rfl, hfree g hmem, rfl, ?_, ?_, ?_⟩
      · exact alistLookup_ptInsert_self _ _ _ hmiss
      · intro g' rest' heq
        injection heq with h1 h2
        exact ⟨h1, rfl⟩
      · intro h0
        exact absurd h0 (List.cons_ne_nil g rest)
    · exact hlt
  | nil =>
    cases hlast : s.replacer.getLast? with
    | none =>
      have hno : acquireFrame s = none :=
        (acquireFrame_eq_none_iff s).mpr ⟨hfl, List.getLast?_eq_none_iff.mp hlast⟩
      have := (fetchPage_isNone s pid hmiss).mpr hno
      rw [this] at hres
      cases hres
    | some v =>
      have hvmem : v ∈ s.replacer := mem_of_getLast?_eq_some hlast
      obtain ⟨hpt, hvlt⟩ := hrep v hvmem
      cases ha : acquireFrame s with
      | none => exact absurd ha (acquireFrame_ne_none_of_victim s v hfl hlast)
      | some x =>
        obtain ⟨v', s', ws⟩ := x
        have hv' : v = v' := by
          rw [acquireFrame_victim_spec s v hfl hlast] at ha
          dsimp only at ha
          split at ha <;>
            (simp only [Option.some.injEq, Prod.mk.injEq] at ha; exact ha.1)
        subst hv'
        have props := acquire_victim_props s v s' ws hfl hlast hpt hvlt ha
        have hspec := fetch_miss_spec s pid v s' ws hmiss ha
        have hfv : v = fid := by
          rw [hspec] at hres
          exact Option.some.inj hres
        subst hfv
        have hne : (getFrame s v).page_id ≠ pid := by
          intro he
          rw [he] at hpt
          rw [hpt] at hmiss
          cases hmiss
        rw [hspec]
        dsimp only
        rw [getFrame_meta_update, getFrame_setFrame_self]
        · refine ⟨rfl, rfl, props.1, ?_, ?_, ?_, ?_⟩
          · exact props.2.2.2.1 pid (fun hh => hne hh.symm)
          · rw [props.2.1]
            refine alistLookup_ptInsert_self _ _ _ ?_
            rw [alistLookup_erase]
            rw [if_neg hne]
            exact hmiss
          · intro g' rest' heq
            simp at heq
          · intro _
            refine ⟨?_, ?_, ?_, ?_⟩
            · rw [victim_eq]
              dsimp only
              rw [hlast]
            · rw [props.2.1]
              rw [alistLookup_ptInsert_ne _ _ _ _ (fun hh => hne hh.symm)]
              rw [alistLookup_erase]
              rw [if_pos rfl]
            · exact props.2.2.2.2.1
            · exact props.2.2.2.2.2
        · rw [props.2.2.1]
          exact hvlt

/-- Witness for C6: scenario S1 — fetching page 7 into the empty
three-frame pool `s1State` returns free frame 0 holding page 7's disk
content. -/
theorem C6_fetch_miss_postconditions_witness :
    (getFrame (FetchPageImpl s1State 7).2.1 0).page_id = 7 ∧
    (getFrame (FetchPageImpl s1State 7).2.1 0).pin_count = 1 ∧
    (getFrame (FetchPageImpl s1State 7).2.1 0).is_dirty = false ∧
    (getFrame (FetchPageImpl s1State 7).2.1 0).data = diskRead s1State.disk 7 ∧
    alistLookup ((FetchPageImpl s1State 7).2.1).page_table 7 = some 0 := by
  have h := C6_fetch_miss_postconditions s1State 7 0 (by decide) (by decide)
    (by decide) (by decide) (by decide)
  exact ⟨h.1, h.2.1, h.2.2.1, h.2.2.2.1, h.2.2.2.2.1⟩

/-- C5: the replacer's operations implement first-transition LRU order:
`Unpin` of a tracked frame is a no-op (the list, hence every position,
is unchanged); `Unpin` of an untracked frame inserts it at the front
(most recently evictable); `Pin` removes a tracked frame entirely while
leaving every other frame's membership unchanged (so a subsequent
`Unpin` re-inserts it at the front); and for every operation sequence
the concrete replacer is the frame projection of the instrumented one,
in which each entry carries the index of the `Unpin` that transitioned
it into the tracked set, and `Victim` returns the tracked frame whose
transitioning `Unpin` was earliest. -/
theorem C5_lru_first_unpin_order (l : List FrameId) (f : FrameId) (t : List ROp) :
    (f ∈ l → LRUReplacer.Unpin l f = l) ∧
    (f ∉ l → LRUReplacer.Unpin l f = f :: l) ∧
    (l.Nodup → f ∉ LRUReplacer.Pin l f) ∧
    (∀ g, g ≠ f → (g ∈ LRUReplacer.Pin l f ↔ g ∈ l)) ∧
    rrun t = ((irun t).1).map Prod.fst ∧
    (∀ g ts, ((irun t).1).getLast? = some (g, ts) →
      (LRUReplacer.Victim (rrun t)).1 = some g ∧ ∀ e ∈ (irun t).1, ts ≤ e.2) := by
  refine ⟨?_, ?_, ?_, ?_, irun_map t, ?_⟩
  · intro h
    simp [LRUReplacer.Unpin, h]
  · intro h
    simp [LRUReplacer.Unpin, h]
  · intro hnd
    exact hnd.not_mem_erase
  · intro g hg
    exact List.mem_erase_of_ne hg
  · intro g ts hlast
    constructor
    · rw [irun_map t, victim_eq]
      dsimp only
      rw [List.getLast?_map, hlast]
      rfl
    · exact pairwise_last_min _ _ (irun_inv t).1 hlast

/-- Witness for C5 on concrete lists and the trace
`Unpin 4; Unpin 6; Unpin 4; Pin 9`: frame 4 was transitioned first and
is the victim. -/
theorem C5_lru_first_unpin_order_witness :
    LRUReplacer.Unpin [1, 2] 1 = [1, 2] ∧
    LRUReplacer.Unpin [1, 2] 3 = [3, 1, 2] ∧
    3 ∉ LRUReplacer.Pin [3, 1] 3 ∧
    (1 ∈ LRUReplacer.Pin [3, 1] 3 ↔ 1 ∈ [3, 1]) ∧
    (LRUReplacer.Victim (rrun [.unpin 4, .unpin 6, .unpin 4, .pin 9])).1 = some 4 := by
  have h1 := C5_lru_first_unpin_order [1, 2] 1 []
  have h2 := C5_lru_first_unpin_order [1, 2] 3 []
  have h3 := C5_lru_first_unpin_order [3, 1] 3 [.unpin 4, .unpin 6, .unpin 4, .pin 9]
  exact ⟨h1.1 (by decide), h2.2.1 (by decide), h3.2.2.1 (by decide),
    h3.2.2.2.1 1 (by decide), (h3.2.2.2.2.2 4 0 (by decide)).1⟩

end BusTub
